import Mathlib

/-!
Verification of the velocity-Verlet notebook (`02_02_Verlet.ipynb`).

The notebook defines a class `particle2` holding one point mass's state
(mass, position `x,y`, velocity `vx,vy`, timestep `dt`, `halfdt = dt/2`,
stored force `fx,fy`) with methods `accel` (half-kick), `move` (drift),
`get_force` (central gravitational force), `verlet2` (one velocity-Verlet
step) and a broken draft `verlet`.  A driver cell builds two planets,
computes their initial forces inline, and advances them `nsteps - 1` times,
recording position and velocity into arrays of length `nsteps` whose row 0
is the initial condition.

Python floats are modelled as real numbers; Python runtime errors
(`ZeroDivisionError` on float division by zero, `NameError` on an unbound
local, `IndexError` on an out-of-bounds array write) are modelled by
`Option`: `none` means the statement raised instead of completing.
-/

noncomputable section

/-- Module-level gravitational parameter `GM = 4*math.pi**2`. -/
def GM : ℝ := 4 * Real.pi ^ 2

/-- The mutable state of one `particle2` instance; fields are listed in the
order `__init__` assigns them (`halfdt` is derived: `self.halfdt = self.dt / 2.`). -/
structure particle2 where
  mass : ℝ
  x : ℝ
  y : ℝ
  vx : ℝ
  vy : ℝ
  dt : ℝ
  halfdt : ℝ
  fx : ℝ
  fy : ℝ

/-- Constructor `particle2.__init__(self, mass, x, y, vx, vy, fx, fy, dt)`:
stores each argument and sets `halfdt = dt / 2`. -/
def particle2.init (mass x y vx vy fx fy dt : ℝ) : particle2 :=
  { mass := mass, x := x, y := y, vx := vx, vy := vy,
    dt := dt, halfdt := dt / 2, fx := fx, fy := fy }

namespace particle2

/-- Method `accel(self)`: `vx += fx*halfdt/mass; vy += fy*halfdt/mass`
(a half-kick with the currently stored force). -/
def accel (p : particle2) : particle2 :=
  { p with vx := p.vx + p.fx * p.halfdt / p.mass,
           vy := p.vy + p.fy * p.halfdt / p.mass }

/-- Method `move(self)`: `x += vx*dt + fx*dt*halfdt/mass; y += vy*dt + fy*dt*halfdt/mass`
(the drift, using the velocity and force stored at the start of the step). -/
def move (p : particle2) : particle2 :=
  { p with x := p.x + p.vx * p.dt + p.fx * p.dt * p.halfdt / p.mass,
           y := p.y + p.vy * p.dt + p.fy * p.dt * p.halfdt / p.mass }

/-- Method `get_force(self)`: `r = sqrt(x*x+y*y); r3 = r*r*r;
fx = -GM*mass*x/r3; fy = -GM*mass*y/r3`.

When `r3 = 0` (the body sits at the origin) the Python float division
raises `ZeroDivisionError` while evaluating the right-hand side of the
`fx` assignment, so neither field is written: modelled as `none`. -/
def get_force (p : particle2) : Option particle2 :=
  let r := Real.sqrt (p.x * p.x + p.y * p.y)
  let r3 := r * r * r
  if r3 = 0 then none
  else some { p with fx := -GM * p.mass * p.x / r3, fy := -GM * p.mass * p.y / r3 }

/-- Method `verlet2(self)`: `self.move(); self.accel(); self.get_force(); self.accel()` —
drift, half-kick with the old force, force recomputation at the new
position, half-kick with the new force. -/
def verlet2 (p : particle2) : Option particle2 :=
  (get_force (accel (move p))).map accel

/-- Method `verlet(self, dt)`: the discarded first draft.  Its first statement
`self.get_force(fx, fy)` evaluates the locals `fx` and `fy`, which are
never bound anywhere in the method, so Python raises `NameError` before any
field of `self` is touched.  The failing lookups are modelled as `none`
binds; the rest of the body (which would also be ill-typed, since
`get_force` takes no arguments) is kept after them for reference. -/
def verlet (p : particle2) (dt : ℝ) : Option particle2 := do
  let fx ← (none : Option ℝ)
  let fy ← (none : Option ℝ)
  let q : particle2 :=
    { p with x := p.x + p.vx * dt + 0.5 * fx * dt * dt,
             y := p.y + p.vy * dt + 0.5 * fy * dt * dt }
  let q : particle2 := { q with vx := q.vx + 0.5 * fx * dt, vy := q.vy + 0.5 * fy * dt }
  let fx2 ← (none : Option ℝ)
  let fy2 ← (none : Option ℝ)
  some { q with vx := q.vx + 0.5 * fx2 * dt, vy := q.vy + 0.5 * fy2 * dt }

end particle2

/-- The central force's x-component at position `(x, y)` for a body of mass
`m`: `-GM*m*x/r3` with `r3 = r*r*r`, `r = sqrt(x*x+y*y)` — the value
`get_force` stores into `fx` when it succeeds. -/
def centralFx (m x y : ℝ) : ℝ :=
  -GM * m * x /
    (Real.sqrt (x * x + y * y) * Real.sqrt (x * x + y * y) * Real.sqrt (x * x + y * y))

/-- The central force's y-component at position `(x, y)` for a body of mass `m`. -/
def centralFy (m x y : ℝ) : ℝ :=
  -GM * m * y /
    (Real.sqrt (x * x + y * y) * Real.sqrt (x * x + y * y) * Real.sqrt (x * x + y * y))

/-- The stored force agrees with the central force evaluated at the body's
current position (the freshness invariant of the spec). -/
def forceFresh (p : particle2) : Prop :=
  p.fx = centralFx p.mass p.x p.y ∧ p.fy = centralFy p.mass p.x p.y

/-- The driver's initial-force loop body (cell 2):
`r = sqrt(x*x+y*y); r3 = r*r*r; fx = -GM*mass*x/r3; fy = -GM*mass*y/r3;
planets[i].fx = fx; planets[i].fy = fy` — the same central-force
computation `get_force` performs, raising `ZeroDivisionError` when `r3 = 0`. -/
def setInitialForce (p : particle2) : Option particle2 :=
  let r := Real.sqrt (p.x * p.x + p.y * p.y)
  let r3 := r * r * r
  if r3 = 0 then none
  else some { p with fx := -GM * p.mass * p.x / r3, fy := -GM * p.mass * p.y / r3 }

/-- The sample the driver records for one body after each step:
`x[i,n], y[i,n], vx[i,n], vy[i,n]`. -/
def record (p : particle2) : ℝ × ℝ × ℝ × ℝ := (p.x, p.y, p.vx, p.vy)

/-- The state of one body after `n` calls of `verlet2`, propagating failure. -/
def iterSteps (p : particle2) : ℕ → Option particle2
  | 0 => some p
  | n + 1 => (particle2.verlet2 p).bind (fun q => iterSteps q n)

/-- The samples one body contributes to rows `i ≥ 1` of the trajectory
arrays when `k` iterations of the stepping loop remain: each iteration
calls `verlet2` and records the state right after the call. -/
def stepsFrom (p : particle2) : ℕ → Option (List (ℝ × ℝ × ℝ × ℝ))
  | 0 => some []
  | k + 1 => do
      let q ← particle2.verlet2 p
      let rest ← stepsFrom q k
      pure (record q :: rest)

/-- One body's full recorded trajectory for a run of `nsteps = int(tmax/dt)`:
the driver allocates arrays of length `nsteps`, writes the initial
condition into row 0, and runs the stepping loop `for i in range(1, nsteps)`.
When `nsteps = 0` the arrays are empty and the write of the initial
condition (`x[0,0] = r1`) raises `IndexError`, so no trajectory is
produced: modelled as `none`. -/
def traj (p : particle2) (nsteps : ℕ) : Option (List (ℝ × ℝ × ℝ × ℝ)) :=
  if nsteps = 0 then none
  else do
    let rest ← stepsFrom p (nsteps - 1)
    pure (record p :: rest)

/-- Driver loop statement `planets[n].verlet2()`: step the body stored at
index `n` of the planet list, leaving every other entry untouched
(an out-of-range index would raise `IndexError`: modelled as `none`). -/
def stepAt (ps : List particle2) (n : ℕ) : Option (List particle2) :=
  (ps[n]?).bind (fun p => (particle2.verlet2 p).map (fun q => ps.set n q))

/-- One iteration of the inner driver loop `for n in range(0, NPLANETS)`:
step every body once, in list order. -/
def stepAll (ps : List particle2) : Option (List particle2) :=
  ps.mapM particle2.verlet2

/-- The driver's first planet as constructed in cell 2, before its initial
force is filled in: `particle2(m1, r1, 0., 0., v1, 0, 0, dt)` with
`m1 = 0.1`, `r1 = 1.`, `v1 = sqrt(GM/r1)`, `dt = 0.001`. -/
def planet1 : particle2 :=
  particle2.init 0.1 1 0 0 (Real.sqrt (GM / 1)) 0 0 0.001

/-- Test body used for concrete evaluations: unit mass at `(1, 0)`, at rest,
with timestep `0` and stored force equal to the central force there.  With
`dt = 0` every `verlet2` call leaves it fixed, which keeps concrete
evaluation of the integrator exact. -/
def pA : particle2 :=
  particle2.init 1 1 0 0 0 (centralFx 1 1 0) (centralFy 1 1 0) 0

/-- Test body: unit mass at `(1, 0)`, at rest, timestep `0`, stored force
still at its constructor default `(0, 0)`. -/
def pB : particle2 :=
  particle2.init 1 1 0 0 0 0 0 0

/-- The state `get_force` produces from `pB`: the same body with the
central force at `(1, 0)` filled in. -/
def qB : particle2 :=
  { pB with fx := centralFx 1 1 0, fy := centralFy 1 1 0 }

/-- Test body sitting exactly at the origin. -/
def pO : particle2 :=
  particle2.init 1 0 0 0 0 0 0 0.001

end

/-! Helper lemmas. -/

theorem sumsq_pos {x y : ℝ} (h : ¬(x = 0 ∧ y = 0)) : 0 < x * x + y * y := by
  rcases not_and_or.mp h with hx | hy
  · have h1 : 0 < x * x := mul_self_pos.mpr hx
    nlinarith [mul_self_nonneg y]
  · have h1 : 0 < y * y := mul_self_pos.mpr hy
    nlinarith [mul_self_nonneg x]

theorem r3_pos {x y : ℝ} (h : ¬(x = 0 ∧ y = 0)) :
    0 < Real.sqrt (x * x + y * y) * Real.sqrt (x * x + y * y) * Real.sqrt (x * x + y * y) := by
  have hs : 0 < Real.sqrt (x * x + y * y) := Real.sqrt_pos.mpr (sumsq_pos h)
  positivity

theorem particle2.get_force_of_ne (p : particle2) (h : ¬(p.x = 0 ∧ p.y = 0)) :
    p.get_force = some { p with fx := centralFx p.mass p.x p.y,
                                fy := centralFy p.mass p.x p.y } := by
  have hr : Real.sqrt (p.x * p.x + p.y * p.y) * Real.sqrt (p.x * p.x + p.y * p.y) *
      Real.sqrt (p.x * p.x + p.y * p.y) ≠ 0 := (r3_pos h).ne'
  simp only [particle2.get_force]
  rw [if_neg hr]
  rfl

theorem particle2.get_force_origin (p : particle2) (hx : p.x = 0) (hy : p.y = 0) :
    p.get_force = none := by
  simp [particle2.get_force, hx, hy]

theorem particle2.get_force_frame (p r : particle2) (h : p.get_force = some r) :
    r.mass = p.mass ∧ r.x = p.x ∧ r.y = p.y ∧ r.vx = p.vx ∧ r.vy = p.vy ∧
    r.dt = p.dt ∧ r.halfdt = p.halfdt := by
  simp only [particle2.get_force] at h
  split at h
  · exact absurd h (by simp)
  · have h2 : _ = r := Option.some.inj h
    subst h2
    exact ⟨rfl, rfl, rfl, rfl, rfl, rfl, rfl⟩

theorem particle2.get_force_fresh (p r : particle2) (h : p.get_force = some r) :
    forceFresh r := by
  simp only [particle2.get_force] at h
  split at h
  · exact absurd h (by simp)
  · have h2 : _ = r := Option.some.inj h
    subst h2
    exact ⟨rfl, rfl⟩

theorem particle2.accel_fresh (p : particle2) (h : forceFresh p) : forceFresh p.accel := h

theorem setInitialForce_fresh (p r : particle2) (h : setInitialForce p = some r) :
    forceFresh r := by
  simp only [setInitialForce] at h
  split at h
  · exact absurd h (by simp)
  · have h2 : _ = r := Option.some.inj h
    subst h2
    exact ⟨rfl, rfl⟩

theorem particle2.verlet2_eq_of_ne (p : particle2)
    (h : ¬((p.move).x = 0 ∧ (p.move).y = 0)) :
    p.verlet2 = some
      { mass := p.mass, x := (p.move).x, y := (p.move).y,
        vx := p.vx + p.fx * p.halfdt / p.mass +
          centralFx p.mass (p.move).x (p.move).y * p.halfdt / p.mass,
        vy := p.vy + p.fy * p.halfdt / p.mass +
          centralFy p.mass (p.move).x (p.move).y * p.halfdt / p.mass,
        dt := p.dt, halfdt := p.halfdt,
        fx := centralFx p.mass (p.move).x (p.move).y,
        fy := centralFy p.mass (p.move).x (p.move).y } := by
  have h2 : ¬(((p.move).accel).x = 0 ∧ ((p.move).accel).y = 0) := h
  unfold particle2.verlet2
  rw [particle2.get_force_of_ne _ h2]
  rfl

/-! Concrete evaluations at the test bodies. -/

theorem pA_ne : ¬(pA.x = 0 ∧ pA.y = 0) := by
  simp [pA, particle2.init]

theorem pB_ne : ¬(pB.x = 0 ∧ pB.y = 0) := by
  simp [pB, particle2.init]

theorem get_force_pA_eq : pA.get_force = some pA := by
  rw [particle2.get_force_of_ne pA pA_ne]
  rfl

theorem get_force_pB_eq : pB.get_force = some qB := by
  rw [particle2.get_force_of_ne pB pB_ne]
  rfl

theorem move_pA : pA.move = pA := by
  simp [particle2.move, pA, particle2.init]

theorem accel_pA : pA.accel = pA := by
  simp [particle2.accel, pA, particle2.init]

theorem move_pB : pB.move = pB := by
  simp [particle2.move, pB, particle2.init]

theorem accel_pB : pB.accel = pB := by
  simp [particle2.accel, pB, particle2.init]

theorem accel_qB : qB.accel = qB := by
  simp [particle2.accel, qB, pB, particle2.init]

theorem verlet2_pA_eq : pA.verlet2 = some pA := by
  unfold particle2.verlet2
  rw [move_pA, accel_pA, get_force_pA_eq]
  simp [accel_pA]

theorem verlet2_pB_eq : pB.verlet2 = some qB := by
  unfold particle2.verlet2
  rw [move_pB, accel_pB, get_force_pB_eq]
  simp [accel_qB]


/-! Claims. -/

/-- Claim C1: one `verlet2` call on a body with positive mass, consistent
`halfdt`, a stored force equal to the central force at its current position,
and a non-origin post-drift position, performs drift, half-kick with the
old force, one force recomputation at the new position, and a half-kick
with the new force; hence the new position is `x + v*dt + dt^2/2*f_old/m`
and the new velocity is `v + dt/2*(f_old + f_new)/m` with `f_new` the
central force at the new position. -/
theorem claim_C1 (p : particle2) (hm : 0 < p.mass) (hhalf : p.halfdt = p.dt / 2)
    (hfx : p.fx = centralFx p.mass p.x p.y) (hfy : p.fy = centralFy p.mass p.x p.y)
    (hnew : ¬(p.x + p.vx * p.dt + p.dt ^ 2 / 2 * p.fx / p.mass = 0 ∧
              p.y + p.vy * p.dt + p.dt ^ 2 / 2 * p.fy / p.mass = 0)) :
    ∃ p', p.verlet2 = some p' ∧
      p'.x = p.x + p.vx * p.dt + p.dt ^ 2 / 2 * p.fx / p.mass ∧
      p'.y = p.y + p.vy * p.dt + p.dt ^ 2 / 2 * p.fy / p.mass ∧
      p'.vx = p.vx + p.dt / 2 * (p.fx + centralFx p.mass p'.x p'.y) / p.mass ∧
      p'.vy = p.vy + p.dt / 2 * (p.fy + centralFy p.mass p'.x p'.y) / p.mass := by
  have hmx : (p.move).x = p.x + p.vx * p.dt + p.dt ^ 2 / 2 * p.fx / p.mass := by
    show p.x + p.vx * p.dt + p.fx * p.dt * p.halfdt / p.mass = _
    rw [hhalf]; ring
  have hmy : (p.move).y = p.y + p.vy * p.dt + p.dt ^ 2 / 2 * p.fy / p.mass := by
    show p.y + p.vy * p.dt + p.fy * p.dt * p.halfdt / p.mass = _
    rw [hhalf]; ring
  have hne : ¬((p.move).x = 0 ∧ (p.move).y = 0) := by
    rw [hmx, hmy]; exact hnew
  refine ⟨_, particle2.verlet2_eq_of_ne p hne, hmx, hmy, ?_, ?_⟩
  · show p.vx + p.fx * p.halfdt / p.mass +
        centralFx p.mass (p.move).x (p.move).y * p.halfdt / p.mass =
        p.vx + p.dt / 2 * (p.fx + centralFx p.mass (p.move).x (p.move).y) / p.mass
    rw [hhalf]; ring
  · show p.vy + p.fy * p.halfdt / p.mass +
        centralFy p.mass (p.move).x (p.move).y * p.halfdt / p.mass =
        p.vy + p.dt / 2 * (p.fy + centralFy p.mass (p.move).x (p.move).y) / p.mass
    rw [hhalf]; ring

/-- Witness for C1: applying the step theorem to the concrete body `pA`
yields the claimed new x-position. -/
theorem claim_C1_witness : (pA.verlet2).map particle2.x = some 1 := by
  obtain ⟨p', hstep, hx, -, -, -⟩ :=
    claim_C1 pA (by norm_num [pA, particle2.init]) rfl rfl rfl
      (by norm_num [pA, particle2.init])
  rw [hstep]
  simp only [Option.map_some']
  rw [hx]
  norm_num [pA, particle2.init]

/-- Claim C2: on a body away from the origin, `get_force` returns normally
and stores `force = -GM * mass * position / |position|^3` componentwise,
with `|position| = sqrt(x^2 + y^2)`. -/
theorem claim_C2 (p : particle2) (h : 0 < Real.sqrt (p.x * p.x + p.y * p.y)) :
    p.get_force = some { p with
      fx := -GM * p.mass * p.x / Real.sqrt (p.x * p.x + p.y * p.y) ^ 3,
      fy := -GM * p.mass * p.y / Real.sqrt (p.x * p.x + p.y * p.y) ^ 3 } := by
  have hne : ¬(p.x = 0 ∧ p.y = 0) := by
    rintro ⟨hx, hy⟩
    rw [hx, hy] at h
    simp at h
  have e1 : centralFx p.mass p.x p.y =
      -GM * p.mass * p.x / Real.sqrt (p.x * p.x + p.y * p.y) ^ 3 := by
    unfold centralFx; ring
  have e2 : centralFy p.mass p.x p.y =
      -GM * p.mass * p.y / Real.sqrt (p.x * p.x + p.y * p.y) ^ 3 := by
    unfold centralFy; ring
  rw [particle2.get_force_of_ne p hne, e1, e2]

/-- Witness for C2 at the concrete body `pB` (unit mass at `(1, 0)`). -/
theorem claim_C2_witness : pB.get_force = some { pB with
    fx := -GM * pB.mass * pB.x / Real.sqrt (pB.x * pB.x + pB.y * pB.y) ^ 3,
    fy := -GM * pB.mass * pB.y / Real.sqrt (pB.x * pB.x + pB.y * pB.y) ^ 3 } := by
  refine claim_C2 pB ?_
  have h1 : pB.x * pB.x + pB.y * pB.y = 1 := by norm_num [pB, particle2.init]
  rw [h1, Real.sqrt_one]
  norm_num

/-- Claim C3: force freshness is preserved by `verlet2` (for bodies with
positive mass whose stored force is the central force at their position),
and the driver's initial-force loop establishes it at construction. -/
theorem claim_C3 :
    (∀ p q : particle2, 0 < p.mass → forceFresh p → p.verlet2 = some q → forceFresh q) ∧
    (∀ p q : particle2, setInitialForce p = some q → forceFresh q) := by
  constructor
  · intro p q hm hf hstep
    unfold particle2.verlet2 at hstep
    cases hg : particle2.get_force ((p.move).accel) with
    | none => rw [hg] at hstep; simp at hstep
    | some r =>
        rw [hg] at hstep
        simp only [Option.map_some', Option.some.injEq] at hstep
        rw [← hstep]
        exact particle2.accel_fresh r (particle2.get_force_fresh _ r hg)
  · exact setInitialForce_fresh

/-- Witness for C3: freshness of `pA` survives one concrete `verlet2` call. -/
theorem claim_C3_witness : forceFresh pA :=
  claim_C3.1 pA pA (by norm_num [pA, particle2.init]) ⟨rfl, rfl⟩ verlet2_pA_eq

/-- Claim C4: `get_force` is idempotent away from the origin: running it a
second time without any other mutation returns exactly the state the first
call produced. -/
theorem claim_C4 (p : particle2) (h : 0 < Real.sqrt (p.x * p.x + p.y * p.y)) :
    (p.get_force).bind particle2.get_force = p.get_force := by
  have hne : ¬(p.x = 0 ∧ p.y = 0) := by
    rintro ⟨hx, hy⟩
    rw [hx, hy] at h
    simp at h
  rw [particle2.get_force_of_ne p hne]
  rw [Option.some_bind]
  rw [particle2.get_force_of_ne
    { p with fx := centralFx p.mass p.x p.y, fy := centralFy p.mass p.x p.y } hne]

/-- Witness for C4 at the concrete body `pB`. -/
theorem claim_C4_witness : (pB.get_force).bind particle2.get_force = pB.get_force := by
  refine claim_C4 pB ?_
  have h1 : pB.x * pB.x + pB.y * pB.y = 1 := by norm_num [pB, particle2.init]
  rw [h1, Real.sqrt_one]
  norm_num

/-- Claim C8: `get_force` on a body at the origin is a defined failure:
the float division raises `ZeroDivisionError` (modelled as `none`) before
either force field is written, so the state is unchanged. -/
theorem claim_C8 (p : particle2) (hx : p.x = 0) (hy : p.y = 0) :
    p.get_force = none :=
  particle2.get_force_origin p hx hy

/-- Witness for C8 at the concrete origin body `pO`. -/
theorem claim_C8_witness : pO.get_force = none :=
  claim_C8 pO rfl rfl

/-- Claim C9: the draft method `verlet(dt)` always fails with a
`NameError` on the unbound locals `fx`/`fy` before mutating any field, so
it never returns normally. -/
theorem claim_C9 (p : particle2) (dt : ℝ) : p.verlet dt = none := rfl

/-- Claim C5: stepping two distinct entries of the planet list commutes
whenever each single step is well defined — no body's update reads or
writes another body's state. -/
theorem claim_C5 (ps : List particle2) (i j : ℕ) (hij : i ≠ j)
    (hi : (stepAt ps i).isSome) (hj : (stepAt ps j).isSome) :
    (stepAt ps i).bind (fun qs => stepAt qs j) =
    (stepAt ps j).bind (fun qs => stepAt qs i) := by
  have exi : ∃ p q, ps[i]? = some p ∧ particle2.verlet2 p = some q := by
    unfold stepAt at hi
    rcases h1 : ps[i]? with _ | p
    · rw [h1] at hi; simp at hi
    · rw [h1] at hi
      simp only [Option.some_bind] at hi
      rcases h2 : particle2.verlet2 p with _ | q
      · rw [h2] at hi; simp at hi
      · exact ⟨p, q, rfl, h2⟩
  have exj : ∃ p q, ps[j]? = some p ∧ particle2.verlet2 p = some q := by
    unfold stepAt at hj
    rcases h1 : ps[j]? with _ | p
    · rw [h1] at hj; simp at hj
    · rw [h1] at hj
      simp only [Option.some_bind] at hj
      rcases h2 : particle2.verlet2 p with _ | q
      · rw [h2] at hj; simp at hj
      · exact ⟨p, q, rfl, h2⟩
  obtain ⟨pi, qi, hpi, hvi⟩ := exi
  obtain ⟨pj, qj, hpj, hvj⟩ := exj
  have si : stepAt ps i = some (ps.set i qi) := by
    unfold stepAt
    rw [hpi]
    simp only [Option.some_bind]
    rw [hvi]
    rfl
  have sj : stepAt ps j = some (ps.set j qj) := by
    unfold stepAt
    rw [hpj]
    simp only [Option.some_bind]
    rw [hvj]
    rfl
  have sij : stepAt (ps.set i qi) j = some ((ps.set i qi).set j qj) := by
    unfold stepAt
    rw [List.getElem?_set_ne hij, hpj]
    simp only [Option.some_bind]
    rw [hvj]
    rfl
  have sji : stepAt (ps.set j qj) i = some ((ps.set j qj).set i qi) := by
    unfold stepAt
    rw [List.getElem?_set_ne (Ne.symm hij), hpi]
    simp only [Option.some_bind]
    rw [hvi]
    rfl
  rw [si, sj, Option.some_bind, Option.some_bind, sij, sji,
    List.set_comm qi qj ps hij]

/-- Witness for C5: stepping the two concrete bodies `pA`, `pB` in either
order gives the same final list. -/
theorem claim_C5_witness :
    (stepAt [pA, pB] 0).bind (fun qs => stepAt qs 1) =
    (stepAt [pA, pB] 1).bind (fun qs => stepAt qs 0) :=
  claim_C5 [pA, pB] 0 1 (by norm_num)
    (by unfold stepAt; simp [verlet2_pA_eq])
    (by unfold stepAt; simp [verlet2_pB_eq])

/-- Counterexample to C6 as stated: a run with step count 0 does not
return a length-1 trajectory holding the initial condition — the driver's
write of the initial condition into the length-0 arrays fails
(`IndexError`), so no trajectory is produced. -/
theorem claim_C6_counterexample : traj planet1 0 = none := rfl

/-- Claim C6 (amended): the run whose loop performs zero `verlet2` calls is
`nsteps = 1`; it records a trajectory of length 1 containing exactly the
initial condition.  A step count of 0 produces no trajectory (the
initial-condition write is out of bounds), and one driver iteration over
zero bodies performs no steps and yields no states. -/
theorem claim_C6 :
    (∀ p : particle2, traj p 1 = some [record p]) ∧
    (∀ p : particle2, traj p 0 = none) ∧
    stepAll ([] : List particle2) = some [] := by
  refine ⟨fun p => rfl, fun p => rfl, rfl⟩

/-- Specification of `stepsFrom`: when the remaining `k` loop iterations
all succeed, they produce `k` samples, the `i`-th being the state after
`i + 1` steps from the loop entry state. -/
theorem stepsFrom_spec :
    ∀ (k : ℕ) (p : particle2) (rest : List (ℝ × ℝ × ℝ × ℝ)),
      stepsFrom p k = some rest →
      rest.length = k ∧
      ∀ i, i < k → ∃ q, iterSteps p (i + 1) = some q ∧ rest[i]? = some (record q) := by
  intro k
  induction k with
  | zero =>
      intro p rest h
      have h2 : ([] : List (ℝ × ℝ × ℝ × ℝ)) = rest := Option.some.inj h
      subst h2
      exact ⟨rfl, fun i hi => absurd hi (Nat.not_lt_zero i)⟩
  | succ k ih =>
      intro p rest h
      unfold stepsFrom at h
      rcases hv : particle2.verlet2 p with _ | q
      · rw [hv] at h; simp at h
      · rw [hv] at h
        simp only [Option.bind_eq_bind, Option.some_bind, Option.pure_def] at h
        rcases hs : stepsFrom q k with _ | rest'
        · rw [hs] at h; simp at h
        · rw [hs] at h
          simp only [Option.some_bind] at h
          have h2 : record q :: rest' = rest := Option.some.inj h
          subst h2
          obtain ⟨hlen, hind⟩ := ih q rest' hs
          refine ⟨by simp [hlen], ?_⟩
          intro i hi
          cases i with
          | zero =>
              refine ⟨q, ?_, by simp⟩
              show (particle2.verlet2 p).bind (fun r => iterSteps r 0) = some q
              rw [hv, Option.some_bind]
              rfl
          | succ i' =>
              obtain ⟨r, hr, hr2⟩ := hind i' (by omega)
              refine ⟨r, ?_, by simpa using hr2⟩
              show (particle2.verlet2 p).bind (fun s => iterSteps s (i' + 1)) = some r
              rw [hv, Option.some_bind]
              exact hr

/-- Claim C7: for `nsteps ≥ 1`, a completed run records, per body, an
ordered trajectory of length exactly `nsteps` whose entry 0 is the initial
condition and whose entry `i ≥ 1` is the state immediately after the
body's `i`-th `verlet2` call. -/
theorem claim_C7 (p : particle2) (n : ℕ) (hn : 1 ≤ n) (t : List (ℝ × ℝ × ℝ × ℝ))
    (ht : traj p n = some t) :
    t.length = n ∧ t[0]? = some (record p) ∧
    ∀ i, 1 ≤ i → i < n → ∃ q, iterSteps p i = some q ∧ t[i]? = some (record q) := by
  obtain ⟨m, rfl⟩ : ∃ m, n = m + 1 := ⟨n - 1, by omega⟩
  unfold traj at ht
  rw [if_neg (Nat.succ_ne_zero m)] at ht
  simp only [Nat.add_sub_cancel] at ht
  rcases hs : stepsFrom p m with _ | rest
  · rw [hs] at ht; simp at ht
  · rw [hs] at ht
    simp only [Option.bind_eq_bind, Option.some_bind, Option.pure_def] at ht
    have h2 : record p :: rest = t := Option.some.inj ht
    subst h2
    obtain ⟨hlen, hind⟩ := stepsFrom_spec m p rest hs
    refine ⟨by simp [hlen], by simp, ?_⟩
    intro i h1 h2
    obtain ⟨i', rfl⟩ : ∃ i', i = i' + 1 := ⟨i - 1, by omega⟩
    obtain ⟨q, hq, hr⟩ := hind i' (by omega)
    exact ⟨q, hq, by simpa using hr⟩

/-- Witness for C7: the length clause at the concrete body `pB` with a
one-entry run. -/
theorem claim_C7_witness : ([record pB] : List (ℝ × ℝ × ℝ × ℝ)).length = 1 :=
  (claim_C7 pB 1 (le_refl 1) [record pB] rfl).1

/-- Claim C10 (frame conditions): `accel`, `move`, `get_force` and
`verlet2` never change `mass`, `dt` or `halfdt` (and the constructor sets
`halfdt = dt/2`); `get_force` also leaves position and velocity unchanged,
`accel` leaves position and force unchanged, and `move` leaves velocity
and force unchanged. -/
theorem claim_C10 :
    (∀ mass x y vx vy fx fy dt : ℝ,
        (particle2.init mass x y vx vy fx fy dt).halfdt =
          (particle2.init mass x y vx vy fx fy dt).dt / 2) ∧
    (∀ p : particle2, (p.accel).mass = p.mass ∧ (p.accel).dt = p.dt ∧
        (p.accel).halfdt = p.halfdt ∧ (p.accel).x = p.x ∧ (p.accel).y = p.y ∧
        (p.accel).fx = p.fx ∧ (p.accel).fy = p.fy) ∧
    (∀ p : particle2, (p.move).mass = p.mass ∧ (p.move).dt = p.dt ∧
        (p.move).halfdt = p.halfdt ∧ (p.move).vx = p.vx ∧ (p.move).vy = p.vy ∧
        (p.move).fx = p.fx ∧ (p.move).fy = p.fy) ∧
    (∀ p q : particle2, p.get_force = some q → q.mass = p.mass ∧ q.dt = p.dt ∧
        q.halfdt = p.halfdt ∧ q.x = p.x ∧ q.y = p.y ∧ q.vx = p.vx ∧ q.vy = p.vy) ∧
    (∀ p q : particle2, p.verlet2 = some q → q.mass = p.mass ∧ q.dt = p.dt ∧
        q.halfdt = p.halfdt) := by
  refine ⟨fun mass x y vx vy fx fy dt => rfl,
    fun p => ⟨rfl, rfl, rfl, rfl, rfl, rfl, rfl⟩,
    fun p => ⟨rfl, rfl, rfl, rfl, rfl, rfl, rfl⟩, ?_, ?_⟩
  · intro p q h
    obtain ⟨h1, h2, h3, h4, h5, h6, h7⟩ := particle2.get_force_frame p q h
    exact ⟨h1, h6, h7, h2, h3, h4, h5⟩
  · intro p q h
    unfold particle2.verlet2 at h
    cases hg : particle2.get_force ((p.move).accel) with
    | none => rw [hg] at h; simp at h
    | some r =>
        rw [hg] at h
        simp only [Option.map_some', Option.some.injEq] at h
        obtain ⟨h1, -, -, -, -, h6, h7⟩ := particle2.get_force_frame _ r hg
        rw [← h]
        exact ⟨h1, h6, h7⟩

/-- Witness for C10: the `get_force` frame clause at the concrete pair
`pB`, `qB`. -/
theorem claim_C10_witness : qB.mass = pB.mass ∧ qB.dt = pB.dt ∧
    qB.halfdt = pB.halfdt ∧ qB.x = pB.x ∧ qB.y = pB.y ∧
    qB.vx = pB.vx ∧ qB.vy = pB.vy :=
  claim_C10.2.2.2.1 pB qB get_force_pB_eq
